import Mathlib

/-!
Shallow embedding of the EchoMobileTools session/report lifecycle
(`echo_mobile_session/echo_mobile_session.py`) together with proofs of the
spec's claims about it.

Server interactions are modelled by passing the decoded response of each
HTTP call as an explicit argument; the mutable `EchoMobileSession` object is
modelled by explicit state passing of a `Session` value.  Python exceptions
are modelled by an error type returned through `Except` / product results.
-/

namespace EchoMobile

/-- Errors raised by the Python code: `EchoMobileError` (server reported
`success: false`), `KeyError`, `AssertionError`, `NoSessionDataError`,
`ValueError` (parse failures), and the `TypeError` that subscripting `None`
produces. -/
inductive EMError where
  | echoMobileError (msg : String)
  | keyError (msg : String)
  | assertionError (msg : String)
  | noSessionDataError (msg : String)
  | valueError (msg : String)
  | noneTypeError
deriving DecidableEq, Repr

/-- Default message of `NoSessionDataError`. -/
def noSessionDataDefaultMsg : String :=
  "Resolve this by calling EchoMobileSession.login() first."

/-! ## Calendar arithmetic

Proleptic-Gregorian day counting (days since the UNIX epoch 1970-01-01),
used to model the timestamp arithmetic performed by `datetime` / `time` /
`dateutil` in the source.  `daysFromCivil` / `civilFromDays` follow the
standard era-based civil-calendar algorithms. -/

/-- Whether a (astronomical-numbering) year is a Gregorian leap year. -/
def isLeapYear (y : Int) : Bool :=
  y % 4 = 0 && (y % 100 ≠ 0 || y % 400 = 0)

/-- Number of days in the given month of the given year. -/
def daysInMonth (y m : Int) : Int :=
  if m = 2 then (if isLeapYear y then 29 else 28)
  else if m = 4 ∨ m = 6 ∨ m = 9 ∨ m = 11 then 30
  else 31

/-- Days since 1970-01-01 of the civil date `(y, m, d)`. -/
def daysFromCivil (y m d : Int) : Int :=
  let yAdj : Int := if m ≤ 2 then y - 1 else y
  let era : Int := yAdj / 400
  let yoe : Int := yAdj - era * 400
  let mp : Int := (m + 9) % 12
  let doy : Int := (153 * mp + 2) / 5 + d - 1
  let doe : Int := yoe * 365 + yoe / 4 - yoe / 100 + doy
  era * 146097 + doe - 719468

/-- Civil date `(y, m, d)` of the given number of days since 1970-01-01,
via the era / century / quadrennium / year decomposition (the caps only bind
on the era's final leap day). -/
def civilFromDays (z : Int) : Int × Int × Int :=
  let era := (z + 719468) / 146097
  let doe := z + 719468 - era * 146097
  let c := if doe / 36524 ≤ 3 then doe / 36524 else 3
  let doc := doe - 36524 * c
  let q := if doc / 1461 ≤ 24 then doc / 1461 else 24
  let doq := doc - 1461 * q
  let yiq := if doq / 365 ≤ 3 then doq / 365 else 3
  let doy := doq - 365 * yiq
  let yoe := 100 * c + 4 * q + yiq
  let mp := (5 * doy + 2) / 153
  let d := doy - (153 * mp + 2) / 5 + 1
  let m := if mp < 10 then mp + 3 else mp - 9
  let y := yoe + era * 400
  (if m ≤ 2 then y + 1 else y, m, d)

/-- Calendar fields of a naive (timezone-free) `datetime.datetime` value. -/
structure NaiveDT where
  year : Int
  month : Int
  day : Int
  hour : Int
  minute : Int
  second : Int
deriving DecidableEq, Repr

/-- POSIX timestamp of calendar fields interpreted in UTC.  This models both
the timestamp arithmetic of `datetime` and `time.mktime` applied to a
`timetuple` on a machine whose local timezone is UTC (the configuration the
repository's own unit test `test_normalise_message` encodes). -/
def epochOfFields (f : NaiveDT) : Int :=
  daysFromCivil f.year f.month f.day * 86400
    + f.hour * 3600 + f.minute * 60 + f.second

/-- UTC calendar fields of a POSIX timestamp; models `time.gmtime` and the
fields of a UTC-`astimezone`d `datetime`. -/
def gmtimeFields (e : Int) : NaiveDT :=
  let days := e / 86400
  let sod := e % 86400
  let c := civilFromDays days
  ⟨c.1, c.2.1, c.2.2, sod / 3600, sod % 3600 / 60, sod % 60⟩

/-- Offset-aware `datetime.datetime`, represented semantically as the instant
it denotes (POSIX seconds) together with its UTC offset in minutes. -/
structure AwareDT where
  epoch : Int
  offset : Int
deriving DecidableEq, Repr

/-- Model of a `pytz` timezone object: `localize` chooses the UTC offset (in
minutes) attached to a naive local datetime, `offsetAt` gives the zone's
offset at a given instant (as used by `datetime.astimezone`). -/
structure Tz where
  localize : NaiveDT → Int
  offsetAt : Int → Int

/-- Model of `pytz.timezone("Africa/Nairobi")`: a fixed +03:00 zone for all
dates this system handles. -/
def nairobi : Tz := ⟨fun _ => 180, fun _ => 180⟩

/-- Model of `datetime.astimezone(tz)`: same instant, offset chosen by the
target timezone. -/
def astimezone (dt : AwareDT) (z : Tz) : AwareDT :=
  ⟨dt.epoch, z.offsetAt dt.epoch⟩

/-! ## Character-level parsing

Model of `datetime.strptime(date, "%Y-%m-%d %H:%M")` as used by
`echo_mobile_date_to_iso`, following CPython's `_strptime` regex table:
`%Y` is exactly four digits; `%m`, `%d`, `%H`, `%M` are one or two digits
with greedy two-digit alternatives tried first; literal `-` and `:` match
themselves; whitespace in the format matches one or more whitespace
characters; trailing unconverted input raises `ValueError`, as does an
out-of-range day in the `datetime` constructor. -/

/-- Whether a character is an ASCII digit. -/
def isDigitC (c : Char) : Bool := 48 ≤ c.toNat && c.toNat ≤ 57

/-- Numeric value of an ASCII digit character. -/
def dval (c : Char) : Int := (c.toNat : Int) - 48

/-- Whether a character matches Python's `\s` (ASCII range). -/
def pyIsSpace (c : Char) : Bool :=
  c = ' ' || c = '\t' || c = '\n' || c = '\x0d' || c = '\x0b' || c = '\x0c'

/-- Parse exactly four digit characters (CPython's `%Y` pattern). -/
def parse4Digits : List Char → Option (Int × List Char)
  | c1 :: c2 :: c3 :: c4 :: r =>
    if isDigitC c1 && isDigitC c2 && isDigitC c3 && isDigitC c4 then
      some (((dval c1 * 10 + dval c2) * 10 + dval c3) * 10 + dval c4, r)
    else none
  | _ => none

/-- Parse a literal character. -/
def expectChar (c : Char) : List Char → Option (List Char)
  | a :: r => if a = c then some r else none
  | [] => none

/-- Consume remaining leading whitespace. -/
def skipAllSpace : List Char → List Char
  | a :: r => if pyIsSpace a then skipAllSpace r else a :: r
  | [] => []

/-- Consume one or more whitespace characters (a whitespace run in a
`strptime` format string matches greedily). -/
def skipSpaces1 : List Char → Option (List Char)
  | a :: r => if pyIsSpace a then some (skipAllSpace r) else none
  | [] => none

/-- Parse one or two digits, preferring the two-digit reading when its value
satisfies `valid2` (the regex alternations for `%m`/`%d`/`%H`/`%M` list the
two-digit alternatives first), falling back to one digit when its value
satisfies `valid1`. -/
def parse2Greedy (valid2 valid1 : Int → Bool) : List Char → Option (Int × List Char)
  | a :: b :: r =>
    if isDigitC a && isDigitC b && valid2 (dval a * 10 + dval b) then
      some (dval a * 10 + dval b, r)
    else if isDigitC a && valid1 (dval a) then some (dval a, b :: r)
    else none
  | [a] => if isDigitC a && valid1 (dval a) then some (dval a, []) else none
  | [] => none

/-- CPython `%m` pattern `1[0-2]|0[1-9]|[1-9]`. -/
def parseMonth : List Char → Option (Int × List Char) :=
  parse2Greedy (fun v => 1 ≤ v && v ≤ 12) (fun v => 1 ≤ v && v ≤ 9)

/-- CPython `%d` pattern `3[01]|[12]\d|0[1-9]|[1-9]`. -/
def parseDay : List Char → Option (Int × List Char) :=
  parse2Greedy (fun v => 1 ≤ v && v ≤ 31) (fun v => 1 ≤ v && v ≤ 9)

/-- CPython `%H` pattern `2[0-3]|[0-1]\d|\d`. -/
def parseHour : List Char → Option (Int × List Char) :=
  parse2Greedy (fun v => v ≤ 23) (fun _ => true)

/-- CPython `%M` pattern `[0-5]\d|\d`. -/
def parseMinute : List Char → Option (Int × List Char) :=
  parse2Greedy (fun v => v ≤ 59) (fun _ => true)

/-- Sequential match of the format `"%Y-%m-%d %H:%M"`, returning the parsed
fields and the unconverted remainder. -/
def strptimeFields (l : List Char) : Option (NaiveDT × List Char) :=
  match parse4Digits l with
  | none => none
  | some (y, r1) =>
    match expectChar '-' r1 with
    | none => none
    | some r2 =>
      match parseMonth r2 with
      | none => none
      | some (mo, r3) =>
        match expectChar '-' r3 with
        | none => none
        | some r4 =>
          match parseDay r4 with
          | none => none
          | some (d, r5) =>
            match skipSpaces1 r5 with
            | none => none
            | some r6 =>
              match parseHour r6 with
              | none => none
              | some (h, r7) =>
                match expectChar ':' r7 with
                | none => none
                | some r8 =>
                  match parseMinute r8 with
                  | none => none
                  | some (mi, r9) => some (⟨y, mo, d, h, mi, 0⟩, r9)

/-- Whether parsed fields survive the `datetime` constructor's range checks
(month and hour/minute ranges are already enforced by the patterns; the year
must be in `MINYEAR..MAXYEAR` and the day within the month's length). -/
def validDate (f : NaiveDT) : Bool :=
  1 ≤ f.year && 1 ≤ f.day && f.day ≤ daysInMonth f.year f.month

/-- Model of `datetime.strptime(s, "%Y-%m-%d %H:%M")`: `none` is the
`ValueError` raised on a failed match, unconverted trailing data, or an
out-of-range date. -/
def strptimeYmdHM (l : List Char) : Option NaiveDT :=
  match strptimeFields l with
  | some (f, []) => if validDate f then some f else none
  | _ => none

/-- Parse exactly two digit characters. -/
def parse2Digits : List Char → Option (Int × List Char)
  | c1 :: c2 :: r =>
    if isDigitC c1 && isDigitC c2 then some (dval c1 * 10 + dval c2, r) else none
  | _ => none

/-- Parse the UTC-offset tail of an ISO-8601 string: `Z`, `+hh:mm` or
`-hh:mm`, returning the offset in minutes. -/
def parseIsoOffset : List Char → Option (Int × List Char)
  | 'Z' :: r => some (0, r)
  | '+' :: r =>
    match parse2Digits r with
    | none => none
    | some (h, r1) =>
      match expectChar ':' r1 with
      | none => none
      | some r2 =>
        match parse2Digits r2 with
        | none => none
        | some (m, r3) => some (h * 60 + m, r3)
  | '-' :: r =>
    match parse2Digits r with
    | none => none
    | some (h, r1) =>
      match expectChar ':' r1 with
      | none => none
      | some r2 =>
        match parse2Digits r2 with
        | none => none
        | some (m, r3) => some (-(h * 60 + m), r3)
  | _ => none

/-- Model of `dateutil.parser.isoparse` on the offset-carrying timestamp
strings this system feeds it (`YYYY-MM-DDThh:mm:ss` followed by `Z` or
`±hh:mm`); produces the denoted instant and UTC offset. -/
def isoparse8601 (l : List Char) : Option AwareDT :=
  match parse4Digits l with
  | none => none
  | some (y, r1) =>
    match expectChar '-' r1 with
    | none => none
    | some r2 =>
      match parse2Digits r2 with
      | none => none
      | some (mo, r3) =>
        match expectChar '-' r3 with
        | none => none
        | some r4 =>
          match parse2Digits r4 with
          | none => none
          | some (d, r5) =>
            match expectChar 'T' r5 with
            | none => none
            | some r6 =>
              match parse2Digits r6 with
              | none => none
              | some (h, r7) =>
                match expectChar ':' r7 with
                | none => none
                | some r8 =>
                  match parse2Digits r8 with
                  | none => none
                  | some (mi, r9) =>
                    match expectChar ':' r9 with
                    | none => none
                    | some r10 =>
                      match parse2Digits r10 with
                      | none => none
                      | some (s, r11) =>
                        match parseIsoOffset r11 with
                        | some (off, []) =>
                          let f : NaiveDT := ⟨y, mo, d, h, mi, s⟩
                          if validDate f && mo ≤ 12 && h ≤ 23 && mi ≤ 59 && s ≤ 59 then
                            some ⟨epochOfFields f - off * 60, off⟩
                          else none
                        | _ => none

/-! ## Printing -/

/-- Digit character of `n % 10`. -/
def dchar (n : Int) : Char := Char.ofNat (48 + (n % 10).toNat)

/-- Two-digit zero-padded decimal rendering. -/
def pad2 (n : Int) : List Char := [dchar (n / 10), dchar n]

/-- Four-digit zero-padded decimal rendering. -/
def pad4 (n : Int) : List Char :=
  [dchar (n / 1000), dchar (n / 100), dchar (n / 10), dchar n]

/-- Model of `datetime.isoformat()` on an offset-aware datetime with the
given calendar fields and UTC offset in minutes:
`YYYY-MM-DDThh:mm:ss±hh:mm`. -/
def isoformatAware (f : NaiveDT) (off : Int) : String :=
  let sign := if off < 0 then '-' else '+'
  let a := if off < 0 then -off else off
  String.mk (pad4 f.year ++ '-' :: pad2 f.month ++ '-' :: pad2 f.day
    ++ 'T' :: pad2 f.hour ++ ':' :: pad2 f.minute ++ ':' :: pad2 f.second
    ++ sign :: pad2 (a / 60) ++ ':' :: pad2 (a % 60))

/-! ## Decoded server responses

Each HTTP endpoint's decoded JSON body, restricted to the fields the client
reads.  Every operation takes the decoded response of the request it issues
as an explicit argument. -/

/-- Decoded body of `POST authenticate/simple`: the login context stored in
`login_data`, of which the code later reads `tz` and
`enterprise -> key`. -/
structure LoginResponse where
  success : Bool
  message : String
  tz : String
  enterpriseKey : String
deriving DecidableEq, Repr

/-- One entry of the `linked` list of `GET cms/account/me`. -/
structure AccountEntry where
  ent_name : String
  key : String
deriving DecidableEq, Repr

/-- Decoded body of `GET cms/account/me`. -/
structure AccountsResponse where
  success : Bool
  message : String
  linked : List AccountEntry
deriving DecidableEq, Repr

/-- One entry of the `groups` list of `GET cms/group` or the `surveys` list
of `GET cms/survey`. -/
structure NamedEntry where
  name : String
  key : String
deriving DecidableEq, Repr

/-- Decoded body of `GET cms/group`. -/
structure GroupsResponse where
  success : Bool
  message : String
  groups : List NamedEntry
deriving DecidableEq, Repr

/-- Decoded body of `GET cms/survey`. -/
structure SurveysResponse where
  success : Bool
  message : String
  surveys : List NamedEntry
deriving DecidableEq, Repr

/-- Decoded body of `POST cms/report/generate`. -/
structure GenerateResponse where
  success : Bool
  message : String
  rkey : String
deriving DecidableEq, Repr

/-- One background task of `GET cms/backgroundtask`'s `tasks` map. -/
structure TaskInfo where
  status : Int
  progress : Int
  total : Int
deriving DecidableEq, Repr

/-- Decoded body of `GET cms/backgroundtask`; `tasks` is the JSON object
mapping task keys to task descriptions. -/
structure PollResponse where
  success : Bool
  message : String
  tasks : List (String × TaskInfo)
deriving DecidableEq, Repr

/-- Decoded body of `POST cms/backgroundtask/cancel` and of
`POST authenticate/linked`. -/
structure CancelResponse where
  success : Bool
  message : String
deriving DecidableEq, Repr

/-- Key lookup in a decoded JSON object (`response["tasks"][k]`). -/
def lookupTask (tasks : List (String × TaskInfo)) (k : String) : Option TaskInfo :=
  match tasks with
  | [] => none
  | (k2, t) :: rest => if k2 = k then some t else lookupTask rest k

/-! ## Session state and operations -/

/-- Mutable state of an `EchoMobileSession`: the outstanding background-task
set and the login context (`None` until a successful `login`). -/
structure Session where
  background_tasks : Finset String
  login_data : Option LoginResponse
deriving DecidableEq

/-- Fresh session produced by `EchoMobileSession()`. -/
def Session.init : Session := ⟨∅, none⟩

/-- Model of `login`: on `success: false` raises `EchoMobileError` with the
server's message and leaves the session untouched; otherwise stores the
whole decoded response as `login_data`. -/
def login (s : Session) (resp : LoginResponse) : Session × Option EMError :=
  if resp.success = false then (s, some (.echoMobileError resp.message))
  else ({ s with login_data := some resp }, none)

/-- Model of `accounts`: checks the success flag, then returns the `linked`
list exactly as decoded. -/
def accounts (resp : AccountsResponse) : Except EMError (List AccountEntry) :=
  if resp.success = false then .error (.echoMobileError resp.message)
  else .ok resp.linked

/-- Model of `account_key_for_name`: filters the freshly fetched accounts by
exact `ent_name` match; zero matches raise `KeyError`; otherwise the first
match's key is returned (no multiplicity check). -/
def account_key_for_name (resp : AccountsResponse) (account_name : String) :
    Except EMError String :=
  match accounts resp with
  | .error e => .error e
  | .ok lst =>
    match lst.filter (fun a => a.ent_name = account_name) with
    | [] =>
      .error (.keyError ("Account with account_name " ++ account_name ++ " not found"))
    | a :: _ => .ok a.key

/-- Model of `use_account_with_key` (`POST authenticate/linked`): only the
success check. -/
def use_account_with_key (resp : CancelResponse) : Except EMError Unit :=
  if resp.success = false then .error (.echoMobileError resp.message)
  else .ok ()

/-- Model of `groups`: checks the success flag, then returns the `groups`
list exactly as decoded. -/
def groups (resp : GroupsResponse) : Except EMError (List NamedEntry) :=
  if resp.success = false then .error (.echoMobileError resp.message)
  else .ok resp.groups

/-- Comma join of the names of a listing, as built by
`",".join(map(lambda g: g["name"], groups))`. -/
def joinNames (lst : List NamedEntry) : String :=
  match lst with
  | [] => ""
  | e :: rest => rest.foldl (fun acc g => acc ++ "," ++ g.name) e.name

/-- Model of `group_key_for_name`: zero exact-name matches raise `KeyError`
enumerating the available names; more than one match fails the
`len(matching_groups) == 1` assertion; exactly one match returns its key. -/
def group_key_for_name (resp : GroupsResponse) (group_name : String) :
    Except EMError String :=
  match groups resp with
  | .error e => .error e
  | .ok gs =>
    match gs.filter (fun g => g.name = group_name) with
    | [] =>
      .error (.keyError ("Requested group not found on Echo Mobile (Available groups: "
        ++ joinNames gs ++ ")"))
    | [g] => .ok g.key
    | _ :: _ :: _ => .error (.assertionError ("Multiple surveys with name " ++ group_name))

/-- Model of `surveys`: checks the success flag, then returns the `surveys`
list exactly as decoded. -/
def surveysOp (resp : SurveysResponse) : Except EMError (List NamedEntry) :=
  if resp.success = false then .error (.echoMobileError resp.message)
  else .ok resp.surveys

/-- Model of `survey_key_for_name`: zero exact-name matches raise `KeyError`
enumerating the available names; more than one match fails the
`len(matching_surveys) == 1` assertion; exactly one match returns its key. -/
def survey_key_for_name (resp : SurveysResponse) (survey_name : String) :
    Except EMError String :=
  match surveysOp resp with
  | .error e => .error e
  | .ok ss =>
    match ss.filter (fun g => g.name = survey_name) with
    | [] =>
      .error (.keyError ("Requested survey not found on Echo Mobile (Available surveys: "
        ++ joinNames ss ++ ")"))
    | [g] => .ok g.key
    | _ :: _ :: _ => .error (.assertionError ("Multiple surveys with name " ++ survey_name))

/-- Outcome of `await_report_generated` over a finite trace of poll
responses: normal return, a raised error, or trace exhausted while the task
still reports the generating status (the Python loop would keep polling). -/
inductive AwaitResult where
  | ok
  | error (e : EMError)
  | pending
deriving DecidableEq, Repr

/-- Message of the terminal-status assertion in `await_report_generated`. -/
def unknownStatusMsg : String := "Report stopped generating, but with an unknown status"

/-- Model of `await_report_generated`: `report_status` starts at the
generating value `1`; each loop iteration sleeps, fetches the background-task
listing (the next element of `trace`), checks the success flag, looks up
`"report_" + report_key` (a missing key raises `KeyError`), and reads the
task's status; the loop repeats while the status equals `1`; on exit the
`report_status == 3` assertion rejects any other terminal status. -/
def await_report_generated (report_key : String) : List PollResponse → AwaitResult
  | [] => .pending
  | resp :: rest =>
    if resp.success = false then .error (.echoMobileError resp.message)
    else
      match lookupTask resp.tasks ("report_" ++ report_key) with
      | none => .error (.keyError ("report_" ++ report_key))
      | some task =>
        if task.status = 1 then await_report_generated report_key rest
        else if task.status = 3 then .ok
        else .error (.assertionError unknownStatusMsg)

/-- Result of a report-generation call: the report key, a raised error, or
polling still pending when the supplied trace ran out. -/
inductive GenResult where
  | ok (report_key : String)
  | error (e : EMError)
  | pending
deriving DecidableEq, Repr

/-- Shared tail of the three generators: check the success flag, read
`rkey`, add `"report_" + rkey` to the session's background-task set, then
optionally await completion; the set mutation survives whatever polling
does. -/
def finishGenerate (s : Session) (resp : GenerateResponse)
    (trace : List PollResponse) (wait : Bool) : Session × GenResult :=
  if resp.success = false then (s, .error (.echoMobileError resp.message))
  else
    let report_key := resp.rkey
    let s2 := { s with background_tasks := insert ("report_" ++ report_key) s.background_tasks }
    if wait then
      match await_report_generated report_key trace with
      | .ok => (s2, .ok report_key)
      | .error e => (s2, .error e)
      | .pending => (s2, .pending)
    else (s2, .ok report_key)

/-- Model of `generate_messages_report`: building the request parameters
reads `login_data["enterprise"]["key"]`, which on a logged-out session
raises `TypeError` (subscripting `None`) before any request; afterwards the
shared generation tail runs. -/
def generate_messages_report (s : Session) (resp : GenerateResponse)
    (trace : List PollResponse) (wait : Bool) : Session × GenResult :=
  match s.login_data with
  | none => (s, .error .noneTypeError)
  | some _ => finishGenerate s resp trace wait

/-- Model of `generate_inbox_report` (group or global inbox): the request
parameters differ by `group_key`, the response handling does not. -/
def generate_inbox_report (s : Session) (group_key : Option String)
    (resp : GenerateResponse) (trace : List PollResponse) (wait : Bool) :
    Session × GenResult :=
  finishGenerate s resp trace wait

/-- Model of `generate_survey_report`. -/
def generate_survey_report (s : Session) (resp : GenerateResponse)
    (trace : List PollResponse) (wait : Bool) : Session × GenResult :=
  finishGenerate s resp trace wait

/-- Model of `download_report` (`GET cms/report/serve`): the raw response
text is returned verbatim; nothing is decoded and no success check runs. -/
def download_report (response_text : String) : String :=
  response_text

/-- Model of `delete_background_task`: posts the cancel request and checks
the success flag; it does not touch the outstanding-task set. -/
def delete_background_task (resp : CancelResponse) : Except EMError Unit :=
  if resp.success = false then .error (.echoMobileError resp.message)
  else .ok ()

/-- Model of `delete_session_background_tasks`: iterates a snapshot
(`list(self.background_tasks)`, passed here as the explicit enumeration
`snapshot` of the set), deletes each task server-side (`outcomes` gives each
cancel call's decoded response) and removes the key from the set only after
that delete returned; a raised `EchoMobileError` aborts the iteration. -/
def delete_session_background_tasks (s : Session) (snapshot : List String)
    (outcomes : String → CancelResponse) : Session × Option EMError :=
  match snapshot with
  | [] => (s, none)
  | k :: rest =>
    match delete_background_task (outcomes k) with
    | .error e => (s, some e)
    | .ok _ =>
      delete_session_background_tasks
        { s with background_tasks := s.background_tasks.erase k } rest outcomes

/-- The `" EAT"` suffix recognised by `echo_mobile_date_to_iso`. -/
def eatSfx : List Char := [' ', 'E', 'A', 'T']

/-- Characters actually handed to `strptime`: the input with the `" EAT"`
suffix stripped when present (`date[:-4]`). -/
def coreChars (date : String) : List Char :=
  if eatSfx.isSuffixOf date.data then date.data.take (date.data.length - 4) else date.data

/-- Model of `echo_mobile_date_to_iso`: if the input ends with `" EAT"`, the
suffix is stripped and, only when no explicit timezone was supplied, the
fixed Africa/Nairobi zone is selected; the remaining text must parse as
`"%Y-%m-%d %H:%M"` (else `ValueError`); with neither suffix nor explicit
timezone the login context's `tz` is used, and `NoSessionDataError` is
raised when there is no login context; the localized datetime is returned as
an ISO-8601 string. -/
def echo_mobile_date_to_iso (s : Session) (tzdb : String → Tz) (date : String)
    (timezone : Option Tz) : Except EMError String :=
  let hasEat : Bool := eatSfx.isSuffixOf date.data
  let tz1 : Option Tz :=
    if hasEat then (match timezone with | none => some nairobi | some z => some z)
    else timezone
  match strptimeYmdHM (coreChars date) with
  | none => .error (.valueError "unconverted data remains")
  | some f =>
    match tz1 with
    | some z => .ok (isoformatAware f (z.localize f))
    | none =>
      match s.login_data with
      | none => .error (.noSessionDataError noSessionDataDefaultMsg)
      | some ld => .ok (isoformatAware f ((tzdb ld.tz).localize f))

/-- Model of `date_to_echo_mobile_timezone`: reads `login_data["tz"]`
without a `None` check, so a logged-out session raises `TypeError`
(subscripting `None`), then converts the datetime with `astimezone`. -/
def date_to_echo_mobile_timezone (s : Session) (tzdb : String → Tz)
    (dt : AwareDT) : Except EMError AwareDT :=
  match s.login_data with
  | none => .error .noneTypeError
  | some ld => .ok (astimezone dt (tzdb ld.tz))

/-- Key lookup in a decoded JSON record, `d[k]` raising `KeyError`. -/
def lookupField (d : List (String × String)) (k : String) : Option String :=
  match d with
  | [] => none
  | (k2, v) :: rest => if k2 = k then some v else lookupField rest k

/-- Normalised message record `{Sender, Date, Message}`. -/
structure NormalisedMessage where
  sender : String
  date : Int
  message : String
deriving DecidableEq, Repr

/-- Model of `time.mktime` applied to a `timetuple` on a machine whose local
timezone is UTC (the configuration the repository's unit tests encode):
calendar fields back to a POSIX timestamp. -/
def mktimeUTC (f : NaiveDT) : Int := epochOfFields f

/-- Model of `datetime.timetuple` of an aware datetime previously converted
with `astimezone(pytz.utc)`: the UTC calendar fields of its instant. -/
def utcTimetuple (dt : AwareDT) : NaiveDT := gmtimeFields (astimezone dt ⟨fun _ => 0, fun _ => 0⟩).epoch

/-- Model of `normalise_message`: `Sender` and `Message` are the record's
values at `sender_key` and `message_key` unchanged; `Date` is
`time.mktime(isoparse(d[date_key]).astimezone(pytz.utc).timetuple())`. -/
def normalise_message (d : List (String × String))
    (sender_key date_key message_key : String) : Except EMError NormalisedMessage :=
  match lookupField d sender_key with
  | none => .error (.keyError sender_key)
  | some sv =>
    match lookupField d date_key with
    | none => .error (.keyError date_key)
    | some dv =>
      match isoparse8601 dv.data with
      | none => .error (.valueError dv)
      | some aware =>
        match lookupField d message_key with
        | none => .error (.keyError message_key)
        | some mv => .ok ⟨sv, mktimeUTC (utcTimetuple aware), mv⟩

/-! ## Helper lemmas -/

set_option maxHeartbeats 1600000

/-- Composing the civil-date decomposition with the day count recovers the
day number. -/
theorem days_civil_stage (z y m d : Int) (h : civilFromDays z = (y, m, d)) :
    daysFromCivil y m d = z := by
  simp only [civilFromDays, Prod.mk.injEq] at h
  set era := (z + 719468) / 146097 with hera
  set doe := z + 719468 - era * 146097 with hdoe
  set c := if doe / 36524 ≤ 3 then doe / 36524 else 3 with hc
  set doc := doe - 36524 * c with hdoc
  set q := if doc / 1461 ≤ 24 then doc / 1461 else 24 with hq
  set doq := doc - 1461 * q with hdoq
  set yiq := if doq / 365 ≤ 3 then doq / 365 else 3 with hyiq
  set doy := doq - 365 * yiq with hdoy
  set yoe := 100 * c + 4 * q + yiq with hyoe
  set mp := (5 * doy + 2) / 153 with hmp
  set dd := doy - (153 * mp + 2) / 5 + 1 with hdd
  set mm := if mp < 10 then mp + 3 else mp - 9 with hmm
  obtain ⟨hy, hm, hd⟩ := h
  have hdoe1 : 0 ≤ doe ∧ doe ≤ 146096 := by omega
  have hc1 : 0 ≤ c ∧ c ≤ 3 ∧ 0 ≤ doc ∧ doc ≤ 36524 ∧ (c = 3 ∨ doc ≤ 36523) := by
    rcases le_or_lt (doe / 36524) 3 with h | h
    · rw [if_pos h] at hc; omega
    · rw [if_neg (by omega)] at hc; omega
  have hq1 : 0 ≤ q ∧ q ≤ 24 ∧ 0 ≤ doq ∧ doq ≤ 1460 := by
    rcases le_or_lt (doc / 1461) 24 with h | h
    · rw [if_pos h] at hq; omega
    · rw [if_neg (by omega)] at hq; omega
  have hyiq1 : 0 ≤ yiq ∧ yiq ≤ 3 ∧ 0 ≤ doy ∧ doy ≤ 365 := by
    rcases le_or_lt (doq / 365) 3 with h | h
    · rw [if_pos h] at hyiq; omega
    · rw [if_neg (by omega)] at hyiq; omega
  have hyoe1 : 0 ≤ yoe ∧ yoe ≤ 399 := by omega
  have hyoe4 : yoe / 4 = 25 * c + q := by omega
  have hyoe100 : yoe / 100 = c := by omega
  have hmp1 : 0 ≤ mp ∧ mp ≤ 11 := by omega
  have hmm1 : (mm ≤ 2 ↔ 10 ≤ mp) ∧ (mm + 9) % 12 = mp := by
    rcases lt_or_le mp 10 with h | h
    · rw [hmm, if_pos h]; omega
    · rw [hmm, if_neg (by omega)]; omega
  have hcancel : (153 * mp + 2) / 5 + dd - 1 = doy := by omega
  simp only [daysFromCivil]
  rw [← hm, ← hd]
  clear_value era doe c doc q doq yiq doy yoe mp dd mm
  clear hc hq hyiq
  rcases le_or_lt mm 2 with h2 | h2
  · rw [if_pos h2]
    have hy1 : y - 1 = yoe + era * 400 := by omega
    rw [hy1, hmm1.2]
    have e1 : (yoe + era * 400) / 400 = era := by omega
    rw [e1]
    have e2 : yoe + era * 400 - era * 400 = yoe := by ring
    rw [e2]
    omega
  · rw [if_neg (by omega)]
    have hy1 : y = yoe + era * 400 := by omega
    rw [hy1, hmm1.2]
    have e1 : (yoe + era * 400) / 400 = era := by omega
    rw [e1]
    have e2 : yoe + era * 400 - era * 400 = yoe := by ring
    rw [e2]
    omega

/-- Round trip of the day-count conversions. -/
theorem days_civil_roundtrip (z : Int) :
    daysFromCivil (civilFromDays z).1 (civilFromDays z).2.1 (civilFromDays z).2.2 = z :=
  days_civil_stage z _ _ _ rfl

/-- Converting a POSIX timestamp to UTC calendar fields and back is the
identity. -/
theorem epochOfFields_gmtimeFields (e : Int) : epochOfFields (gmtimeFields e) = e := by
  simp only [gmtimeFields, epochOfFields]
  rw [days_civil_roundtrip]
  omega

/-- First component of `finishGenerate`: the task-set insertion happens
whenever the generation response is successful, whatever polling then
does. -/
theorem finishGenerate_fst (s : Session) (resp : GenerateResponse)
    (trace : List PollResponse) (wait : Bool) :
    (finishGenerate s resp trace wait).1 =
      if resp.success = false then s
      else { s with background_tasks := insert ("report_" ++ resp.rkey) s.background_tasks } := by
  by_cases h : resp.success = false
  · simp [finishGenerate, h]
  · simp only [finishGenerate, h, if_neg, if_false]
    cases wait
    · rfl
    · cases haw : await_report_generated resp.rkey trace <;> simp [haw]

/-! ## Claims -/

/-- C1: for every report key, `await_report_generated` repeatedly polls the
background-task listing; a successful poll whose task status equals the
generating value `1` makes the loop continue on the remaining trace; a
status of `3` terminates the call successfully; any other status makes the
call fail with the unknown-status assertion, with the same result for every
continuation of the trace — no further poll iteration is performed. -/
theorem await_report_generated_cases (report_key : String) (r : PollResponse)
    (rest : List PollResponse) (task : TaskInfo) (hs : r.success = true)
    (ht : lookupTask r.tasks ("report_" ++ report_key) = some task) :
    (task.status = 1 → await_report_generated report_key (r :: rest) =
        await_report_generated report_key rest) ∧
    (task.status = 3 → await_report_generated report_key (r :: rest) = .ok) ∧
    (task.status ≠ 1 → task.status ≠ 3 →
      await_report_generated report_key (r :: rest) =
        .error (.assertionError unknownStatusMsg)) := by
  refine ⟨fun h1 => ?_, fun h3 => ?_, fun h1 h3 => ?_⟩
  · simp [await_report_generated, hs, ht, h1]
  · simp [await_report_generated, hs, ht, h3]
  · simp [await_report_generated, hs, ht, h1, h3]

/-- Witness for C1: a concrete two-element trace whose first poll still
reports generating and whose second reports the unknown status `7`. -/
theorem await_report_generated_cases_witness :
    await_report_generated "K"
        [⟨true, "", [("report_K", ⟨1, 0, 0⟩)]⟩, ⟨true, "", [("report_K", ⟨7, 2, 4⟩)]⟩]
      = .error (.assertionError unknownStatusMsg) := by
  have h1 := await_report_generated_cases "K" ⟨true, "", [("report_K", ⟨1, 0, 0⟩)]⟩
    [⟨true, "", [("report_K", ⟨7, 2, 4⟩)]⟩] ⟨1, 0, 0⟩ rfl (by decide)
  have h2 := await_report_generated_cases "K" ⟨true, "", [("report_K", ⟨7, 2, 4⟩)]⟩
    [] ⟨7, 2, 4⟩ rfl (by decide)
  rw [h1.1 rfl, h2.2.2 (by decide) (by decide)]

/-- C2: each of the three report generators adds `"report_" + rkey` to the
session's outstanding-task set as soon as the generation response is
successful, before any polling; the key is in the resulting session's set
for every poll trace and wait flag, in particular when polling raises.
(`generate_messages_report` reads the login context while building its
request, hence its extra logged-in hypothesis.) -/
theorem generate_report_registers_task (s : Session) (resp : GenerateResponse)
    (trace : List PollResponse) (wait : Bool) (group_key : Option String)
    (hs : resp.success = true) :
    (s.login_data ≠ none →
      ("report_" ++ resp.rkey) ∈
        (generate_messages_report s resp trace wait).1.background_tasks) ∧
    ("report_" ++ resp.rkey) ∈
      (generate_inbox_report s group_key resp trace wait).1.background_tasks ∧
    ("report_" ++ resp.rkey) ∈
      (generate_survey_report s resp trace wait).1.background_tasks := by
  have hfin : ("report_" ++ resp.rkey) ∈ (finishGenerate s resp trace wait).1.background_tasks := by
    rw [finishGenerate_fst]
    simp [hs, Finset.mem_insert_self]
  refine ⟨fun hld => ?_, hfin, hfin⟩
  cases hld2 : s.login_data with
  | none => exact absurd hld2 hld
  | some ld => simpa [generate_messages_report, hld2] using hfin

/-- Witness for C2: a logged-in session, a successful generation response
and a poll trace that raises the unknown-status assertion; the key is in
each generator's resulting task set. -/
theorem generate_report_registers_task_witness :
    ("report_" ++ "RK") ∈
      (generate_messages_report
        ⟨∅, some ⟨true, "", "Africa/Nairobi", "ENT"⟩⟩ ⟨true, "", "RK"⟩
        [⟨true, "", [("report_RK", ⟨9, 0, 0⟩)]⟩] true).1.background_tasks := by
  exact (generate_report_registers_task
    ⟨∅, some ⟨true, "", "Africa/Nairobi", "ENT"⟩⟩ ⟨true, "", "RK"⟩
    [⟨true, "", [("report_RK", ⟨9, 0, 0⟩)]⟩] true none rfl).1 (by decide)

/-- C10: a failed login leaves the whole session state unchanged — the
result session is the input session, so `login_data` (whether `none` or a
previous login's context) and the outstanding-task set are untouched; only
a successful login assigns `login_data`, and even then the task set is
unchanged. -/
theorem login_failure_leaves_state (s : Session) (resp : LoginResponse) :
    (resp.success = false →
      login s resp = (s, some (.echoMobileError resp.message))) ∧
    (resp.success = true →
      login s resp = ({ s with login_data := some resp }, none)) ∧
    (login s resp).1.background_tasks = s.background_tasks := by
  refine ⟨fun h => by simp [login, h], fun h => by simp [login, h], ?_⟩
  by_cases h : resp.success = false <;> simp [login, h]

/-- Witness for C10: a concrete failed login against a logged-in session
with one outstanding task changes nothing. -/
theorem login_failure_leaves_state_witness :
    login ⟨{"report_X"}, some ⟨true, "", "UTC", "E"⟩⟩ ⟨false, "bad credentials", "", ""⟩
      = (⟨{"report_X"}, some ⟨true, "", "UTC", "E"⟩⟩,
         some (.echoMobileError "bad credentials")) := by
  exact (login_failure_leaves_state ⟨{"report_X"}, some ⟨true, "", "UTC", "E"⟩⟩
    ⟨false, "bad credentials", "", ""⟩).1 rfl

/-- C3: `delete_session_background_tasks` iterates a snapshot of the
outstanding set (written `pre ++ k :: post` with a failing delete at `k`),
removing each key only after its delete succeeded: the raised error is the
failing delete's, the resulting set is the original minus exactly the
successfully deleted prefix, and the failed key and all not-yet-attempted
keys are still in the set. -/
theorem delete_session_background_tasks_failure (s : Session) (pre : List String)
    (k : String) (post : List String) (outcomes : String → CancelResponse)
    (hpre : ∀ j ∈ pre, (outcomes j).success = true)
    (hk : (outcomes k).success = false)
    (hkmem : k ∈ s.background_tasks)
    (hpost : ∀ j ∈ post, j ∈ s.background_tasks)
    (hnodup : (pre ++ k :: post).Nodup) :
    (delete_session_background_tasks s (pre ++ k :: post) outcomes).2
        = some (.echoMobileError (outcomes k).message) ∧
    (delete_session_background_tasks s (pre ++ k :: post) outcomes).1.background_tasks
        = s.background_tasks \ pre.toFinset ∧
    k ∈ (delete_session_background_tasks s (pre ++ k :: post) outcomes).1.background_tasks ∧
    ∀ j ∈ post,
      j ∈ (delete_session_background_tasks s (pre ++ k :: post) outcomes).1.background_tasks := by
  induction pre generalizing s with
  | nil =>
    have hd : delete_background_task (outcomes k)
        = .error (.echoMobileError (outcomes k).message) := by
      simp [delete_background_task, hk]
    simp only [List.nil_append, delete_session_background_tasks, hd]
    exact ⟨trivial, by simp, hkmem, hpost⟩
  | cons a pre ih =>
    have ha : (outcomes a).success = true := hpre a (by simp)
    have hane : a ∉ pre ++ k :: post := (List.nodup_cons.mp hnodup).1
    have hd : delete_background_task (outcomes a) = .ok () := by
      simp [delete_background_task, ha]
    have hstep : delete_session_background_tasks s ((a :: pre) ++ k :: post) outcomes
        = delete_session_background_tasks
            { s with background_tasks := s.background_tasks.erase a }
            (pre ++ k :: post) outcomes := by
      simp only [List.cons_append, delete_session_background_tasks, hd]
      rfl
    rw [hstep]
    have hk2 : k ∈ (Session.mk (s.background_tasks.erase a) s.login_data).background_tasks := by
      refine Finset.mem_erase.mpr ⟨?_, hkmem⟩
      intro hkeq
      exact hane (by simp [hkeq])
    have hpost2 : ∀ j ∈ post,
        j ∈ (Session.mk (s.background_tasks.erase a) s.login_data).background_tasks := by
      intro j hj
      refine Finset.mem_erase.mpr ⟨?_, hpost j hj⟩
      intro hjeq
      exact hane (by simp [← hjeq, hj])
    obtain ⟨h2, hset, hkm, hpost3⟩ :=
      ih { s with background_tasks := s.background_tasks.erase a }
        (fun j hj => hpre j (by simp [hj])) hk2 hpost2
        ((List.nodup_cons.mp hnodup).2)
    refine ⟨h2, ?_, hkm, hpost3⟩
    rw [hset]
    ext x
    simp only [Finset.mem_sdiff, Finset.mem_erase, List.toFinset_cons, Finset.mem_insert,
      List.mem_toFinset]
    tauto

/-- Witness for C3: a three-task snapshot whose second delete fails leaves
the failed and untried keys in the set. -/
theorem delete_session_background_tasks_failure_witness :
    (delete_session_background_tasks ⟨{"report_A", "report_B", "report_C"}, none⟩
        (["report_A"] ++ "report_B" :: ["report_C"])
        (fun j => if j = "report_A" then ⟨true, ""⟩ else ⟨false, "cancel failed"⟩)).2
      = some (.echoMobileError "cancel failed") ∧
    "report_B" ∈ (delete_session_background_tasks ⟨{"report_A", "report_B", "report_C"}, none⟩
        (["report_A"] ++ "report_B" :: ["report_C"])
        (fun j => if j = "report_A" then ⟨true, ""⟩ else ⟨false, "cancel failed"⟩)).1.background_tasks := by
  have h := delete_session_background_tasks_failure
    ⟨{"report_A", "report_B", "report_C"}, none⟩ ["report_A"] "report_B" ["report_C"]
    (fun j => if j = "report_A" then ⟨true, ""⟩ else ⟨false, "cancel failed"⟩)
    (by decide) (by decide) (by decide) (by decide) (by decide)
  exact ⟨h.1, h.2.2.1⟩

/-- C4 counterexample: deleting is not idempotent from the client's
perspective — when the server reports failure for the cancel request, the
error propagates and the key is NOT removed from the local outstanding
set. -/
theorem delete_idempotence_counterexample :
    (delete_session_background_tasks ⟨{"report_A"}, none⟩ ["report_A"]
        (fun _ => ⟨false, "cancel failed"⟩)).2 = some (.echoMobileError "cancel failed") ∧
    "report_A" ∈ (delete_session_background_tasks ⟨{"report_A"}, none⟩ ["report_A"]
        (fun _ => ⟨false, "cancel failed"⟩)).1.background_tasks := by
  exact ⟨rfl, by decide⟩

/-- C4 (amended): attempting a task's deletion removes it from the local
outstanding set only when the server confirms the cancel; on a
server-reported failure the `EchoMobileError` propagates and the key stays
in the set. -/
theorem delete_background_task_removes_only_on_success (s : Session) (k : String)
    (o : CancelResponse) :
    (o.success = true →
      delete_session_background_tasks s [k] (fun _ => o)
        = ({ s with background_tasks := s.background_tasks.erase k }, none)) ∧
    (o.success = false →
      delete_session_background_tasks s [k] (fun _ => o)
        = (s, some (.echoMobileError o.message))) := by
  constructor <;> intro h <;>
    simp [delete_session_background_tasks, delete_background_task, h]

/-- Witness for C4 (amended): a confirmed cancel removes the key. -/
theorem delete_background_task_removes_only_on_success_witness :
    delete_session_background_tasks ⟨{"report_B"}, none⟩ ["report_B"] (fun _ => ⟨true, ""⟩)
      = (⟨∅, none⟩, none) := by
  rw [(delete_background_task_removes_only_on_success ⟨{"report_B"}, none⟩ "report_B"
    ⟨true, ""⟩).1 rfl]
  decide

/-- C5 counterexample: the accounts resolver has no ambiguity check — on a
listing with two accounts sharing the requested name it silently returns
the first one's key instead of raising an ambiguous-name error (and its
not-found error does not enumerate the available names). -/
theorem account_resolver_counterexample :
    account_key_for_name ⟨true, "", [⟨"A", "k1"⟩, ⟨"A", "k2"⟩]⟩ "A" = .ok "k1" ∧
    account_key_for_name ⟨true, "", [⟨"B", "k1"⟩]⟩ "A"
      = .error (.keyError "Account with account_name A not found") := by
  exact ⟨rfl, rfl⟩

/-- C5 (amended): for the group and survey resolvers, zero exact-name
matches raise a not-found error enumerating the available names, more than
one match fails an assertion, and exactly one match returns that entry's
key; the accounts resolver raises a not-found error (without enumerating
names) on zero matches but returns the FIRST matching entry's key whenever
at least one entry matches, with no ambiguity check. -/
theorem key_for_name_resolution (aresp : AccountsResponse) (gresp : GroupsResponse)
    (sresp : SurveysResponse) (name : String)
    (ha : aresp.success = true) (hg : gresp.success = true) (hs : sresp.success = true) :
    (aresp.linked.filter (fun a => a.ent_name = name) = [] →
      account_key_for_name aresp name
        = .error (.keyError ("Account with account_name " ++ name ++ " not found"))) ∧
    (∀ a rest, aresp.linked.filter (fun x => x.ent_name = name) = a :: rest →
      account_key_for_name aresp name = .ok a.key) ∧
    (gresp.groups.filter (fun g => g.name = name) = [] →
      group_key_for_name gresp name
        = .error (.keyError ("Requested group not found on Echo Mobile (Available groups: "
            ++ joinNames gresp.groups ++ ")"))) ∧
    (∀ g, gresp.groups.filter (fun x => x.name = name) = [g] →
      group_key_for_name gresp name = .ok g.key) ∧
    (∀ g1 g2 rest, gresp.groups.filter (fun x => x.name = name) = g1 :: g2 :: rest →
      group_key_for_name gresp name
        = .error (.assertionError ("Multiple surveys with name " ++ name))) ∧
    (sresp.surveys.filter (fun g => g.name = name) = [] →
      survey_key_for_name sresp name
        = .error (.keyError ("Requested survey not found on Echo Mobile (Available surveys: "
            ++ joinNames sresp.surveys ++ ")"))) ∧
    (∀ g, sresp.surveys.filter (fun x => x.name = name) = [g] →
      survey_key_for_name sresp name = .ok g.key) ∧
    (∀ g1 g2 rest, sresp.surveys.filter (fun x => x.name = name) = g1 :: g2 :: rest →
      survey_key_for_name sresp name
        = .error (.assertionError ("Multiple surveys with name " ++ name))) := by
  refine ⟨fun h0 => ?_, fun a rest h0 => ?_, fun h0 => ?_, fun g h0 => ?_,
    fun g1 g2 rest h0 => ?_, fun h0 => ?_, fun g h0 => ?_, fun g1 g2 rest h0 => ?_⟩ <;>
    simp [account_key_for_name, group_key_for_name, survey_key_for_name,
      accounts, groups, surveysOp, ha, hg, hs, h0]

/-- Witness for C5 (amended): concrete listings exercising the
exactly-one-match branch of all three resolvers. -/
theorem key_for_name_resolution_witness :
    account_key_for_name ⟨true, "", [⟨"Acc", "ka"⟩]⟩ "Acc" = .ok "ka" ∧
    group_key_for_name ⟨true, "", [⟨"G1", "kg1"⟩, ⟨"G2", "kg2"⟩]⟩ "G2" = .ok "kg2" ∧
    survey_key_for_name ⟨true, "", [⟨"S", "ks"⟩]⟩ "S" = .ok "ks" := by
  have h := key_for_name_resolution ⟨true, "", [⟨"Acc", "ka"⟩]⟩
    ⟨true, "", [⟨"G1", "kg1"⟩, ⟨"G2", "kg2"⟩]⟩ ⟨true, "", [⟨"S", "ks"⟩]⟩ "Acc" rfl rfl rfl
  have h2 := key_for_name_resolution ⟨true, "", [⟨"Acc", "ka"⟩]⟩
    ⟨true, "", [⟨"G1", "kg1"⟩, ⟨"G2", "kg2"⟩]⟩ ⟨true, "", [⟨"S", "ks"⟩]⟩ "G2" rfl rfl rfl
  have h3 := key_for_name_resolution ⟨true, "", [⟨"Acc", "ka"⟩]⟩
    ⟨true, "", [⟨"G1", "kg1"⟩, ⟨"G2", "kg2"⟩]⟩ ⟨true, "", [⟨"S", "ks"⟩]⟩ "S" rfl rfl rfl
  exact ⟨h.2.1 ⟨"Acc", "ka"⟩ [] (by decide), h2.2.2.2.1 ⟨"G2", "kg2"⟩ (by decide),
    h3.2.2.2.2.2.2.1 ⟨"S", "ks"⟩ (by decide)⟩

/-- C9 counterexample: `download_report` performs no success-flag check at
all — it returns the raw response body verbatim (and has no failure path),
even when that body announces a failure. -/
theorem download_report_no_check_counterexample :
    download_report "success: false / not a report" = "success: false / not a report" := rfl

/-- C9 (amended): every authenticated/stateful operation that decodes a
JSON response — login, listing accounts/groups/surveys, switching account,
report generation, completion polling, task deletion — checks the decoded
object's success flag before reading any other field: on `success: false`
it raises `EchoMobileError` with the server's message and leaves session
state untouched, and on success the decoded payload is used unchanged;
`download_report` decodes nothing and returns the raw body verbatim with no
check. -/
theorem success_flag_check_all_operations (s : Session) (lr : LoginResponse)
    (ar ar2 : AccountsResponse) (cr cr2 : CancelResponse) (gr gr2 : GroupsResponse)
    (sr sr2 : SurveysResponse) (genr : GenerateResponse) (pr : PollResponse)
    (rest trace : List PollResponse) (key raw : String) (wait : Bool)
    (hl : lr.success = false) (ha : ar.success = false) (hc : cr.success = false)
    (hg : gr.success = false) (hs : sr.success = false) (hgen : genr.success = false)
    (hp : pr.success = false) (ha2 : ar2.success = true) (hc2 : cr2.success = true)
    (hg2 : gr2.success = true) (hs2 : sr2.success = true) :
    login s lr = (s, some (.echoMobileError lr.message)) ∧
    accounts ar = .error (.echoMobileError ar.message) ∧
    use_account_with_key cr = .error (.echoMobileError cr.message) ∧
    groups gr = .error (.echoMobileError gr.message) ∧
    surveysOp sr = .error (.echoMobileError sr.message) ∧
    finishGenerate s genr trace wait = (s, .error (.echoMobileError genr.message)) ∧
    await_report_generated key (pr :: rest) = .error (.echoMobileError pr.message) ∧
    delete_background_task cr = .error (.echoMobileError cr.message) ∧
    accounts ar2 = .ok ar2.linked ∧
    use_account_with_key cr2 = .ok () ∧
    groups gr2 = .ok gr2.groups ∧
    surveysOp sr2 = .ok sr2.surveys ∧
    delete_background_task cr2 = .ok () ∧
    download_report raw = raw := by
  refine ⟨by simp [login, hl], by simp [accounts, ha], by simp [use_account_with_key, hc],
    by simp [groups, hg], by simp [surveysOp, hs], by simp [finishGenerate, hgen],
    by simp [await_report_generated, hp], by simp [delete_background_task, hc],
    by simp [accounts, ha2], by simp [use_account_with_key, hc2],
    by simp [groups, hg2], by simp [surveysOp, hs2],
    by simp [delete_background_task, hc2], rfl⟩

/-- Witness for C9 (amended): a concrete failing poll response makes the
poller raise `EchoMobileError` with the server's message. -/
theorem success_flag_check_all_operations_witness :
    await_report_generated "K" [⟨false, "session expired", []⟩]
      = .error (.echoMobileError "session expired") := by
  exact (success_flag_check_all_operations ⟨∅, none⟩ ⟨false, "m", "", ""⟩
    ⟨false, "m", []⟩ ⟨true, "m", []⟩ ⟨false, "m"⟩ ⟨true, "m"⟩ ⟨false, "m", []⟩
    ⟨true, "m", []⟩ ⟨false, "m", []⟩ ⟨true, "m", []⟩ ⟨false, "m", "rk"⟩
    ⟨false, "session expired", []⟩ [] [] "K" "raw" false
    rfl rfl rfl rfl rfl rfl rfl rfl rfl rfl rfl).2.2.2.2.2.2.1

/-- Appending input does not change a successful four-digit parse. -/
theorem parse4Digits_append (l e : List Char) (v : Int) (r : List Char)
    (h : parse4Digits l = some (v, r)) : parse4Digits (l ++ e) = some (v, r ++ e) := by
  match l with
  | [] => exact absurd h (by simp [parse4Digits])
  | [c1] => exact absurd h (by simp [parse4Digits])
  | [c1, c2] => exact absurd h (by simp [parse4Digits])
  | [c1, c2, c3] => exact absurd h (by simp [parse4Digits])
  | c1 :: c2 :: c3 :: c4 :: rest =>
    simp only [parse4Digits, List.cons_append] at h ⊢
    by_cases hc : (isDigitC c1 && isDigitC c2 && isDigitC c3 && isDigitC c4) = true
    · rw [if_pos hc] at h
      rw [if_pos hc]
      simp only [Option.some.injEq, Prod.mk.injEq] at h ⊢
      exact ⟨h.1, by rw [h.2]⟩
    · rw [if_neg hc] at h
      exact absurd h (by simp)

/-- Appending input does not change a successful literal-character match. -/
theorem expectChar_append (c : Char) (l e r : List Char)
    (h : expectChar c l = some r) : expectChar c (l ++ e) = some (r ++ e) := by
  match l with
  | [] => exact absurd h (by simp [expectChar])
  | a :: t =>
    simp only [expectChar, List.cons_append] at h ⊢
    by_cases hc : a = c
    · rw [if_pos hc] at h
      rw [if_pos hc]
      simp only [Option.some.injEq] at h ⊢
      rw [h]
    · rw [if_neg hc] at h
      exact absurd h (by simp)

/-- Appending input past a non-exhausted whitespace skip lands after the
same characters. -/
theorem skipAllSpace_append (l e : List Char) (a : Char) (r : List Char)
    (h : skipAllSpace l = a :: r) : skipAllSpace (l ++ e) = a :: (r ++ e) := by
  induction l with
  | nil => exact absurd h (by simp [skipAllSpace])
  | cons b t ih =>
    simp only [skipAllSpace, List.cons_append] at h ⊢
    by_cases hb : pyIsSpace b = true
    · rw [if_pos hb] at h
      rw [if_pos hb]
      exact ih h
    · rw [if_neg hb] at h
      rw [if_neg hb]
      simp only [List.cons.injEq] at h ⊢
      exact ⟨h.1, by simp [h.2]⟩

/-- Appending input does not change a whitespace-separator match whose
remainder is nonempty. -/
theorem skipSpaces1_append (l e : List Char) (a : Char) (r : List Char)
    (h : skipSpaces1 l = some (a :: r)) : skipSpaces1 (l ++ e) = some (a :: (r ++ e)) := by
  match l with
  | [] => exact absurd h (by simp [skipSpaces1])
  | b :: t =>
    simp only [skipSpaces1, List.cons_append] at h ⊢
    by_cases hb : pyIsSpace b = true
    · rw [if_pos hb] at h
      rw [if_pos hb]
      simp only [Option.some.injEq] at h ⊢
      exact skipAllSpace_append t e a r h
    · rw [if_neg hb] at h
      exact absurd h (by simp)

/-- Appending input does not change a greedy one-or-two-digit parse whose
remainder is nonempty. -/
theorem parse2Greedy_append_ne (v2 v1 : Int → Bool) (l e : List Char) (v : Int)
    (b : Char) (r : List Char) (h : parse2Greedy v2 v1 l = some (v, b :: r)) :
    parse2Greedy v2 v1 (l ++ e) = some (v, b :: (r ++ e)) := by
  match l with
  | [] => exact absurd h (by simp [parse2Greedy])
  | [a] =>
    simp only [parse2Greedy] at h
    by_cases hc : (isDigitC a && v1 (dval a)) = true
    · rw [if_pos hc] at h
      simp at h
    · rw [if_neg hc] at h
      exact absurd h (by simp)
  | a :: b2 :: t =>
    simp only [parse2Greedy, List.cons_append] at h ⊢
    by_cases hc : (isDigitC a && isDigitC b2 && v2 (dval a * 10 + dval b2)) = true
    · rw [if_pos hc] at h
      rw [if_pos hc]
      simp only [Option.some.injEq, Prod.mk.injEq] at h ⊢
      exact ⟨h.1, by simp [h.2]⟩
    · rw [if_neg hc] at h
      rw [if_neg hc]
      by_cases hc1 : (isDigitC a && v1 (dval a)) = true
      · rw [if_pos hc1] at h
        rw [if_pos hc1]
        simp only [Option.some.injEq, Prod.mk.injEq, List.cons.injEq] at h ⊢
        exact ⟨h.1, h.2.1, by simp [h.2.2]⟩
      · rw [if_neg hc1] at h
        exact absurd h (by simp)

/-- Appending a non-digit after an input-exhausting greedy digit parse
leaves the parsed value unchanged with the appended part as remainder. -/
theorem parse2Greedy_append_end (v2 v1 : Int → Bool) (l : List Char) (v : Int)
    (a : Char) (e : List Char) (ha : isDigitC a = false)
    (h : parse2Greedy v2 v1 l = some (v, [])) :
    parse2Greedy v2 v1 (l ++ a :: e) = some (v, a :: e) := by
  match l with
  | [] => exact absurd h (by simp [parse2Greedy])
  | [c] =>
    simp only [parse2Greedy] at h
    by_cases hc : (isDigitC c && v1 (dval c)) = true
    · rw [if_pos hc] at h
      simp only [Option.some.injEq, Prod.mk.injEq] at h
      show parse2Greedy v2 v1 (c :: a :: e) = some (v, a :: e)
      simp only [parse2Greedy]
      rw [if_neg (by simp [ha]), if_pos hc]
      simp only [Option.some.injEq, Prod.mk.injEq]
      exact ⟨h.1, trivial⟩
    · rw [if_neg hc] at h
      exact absurd h (by simp)
  | c1 :: c2 :: t =>
    simp only [parse2Greedy, List.cons_append] at h ⊢
    by_cases hc : (isDigitC c1 && isDigitC c2 && v2 (dval c1 * 10 + dval c2)) = true
    · rw [if_pos hc] at h
      rw [if_pos hc]
      simp only [Option.some.injEq, Prod.mk.injEq] at h ⊢
      exact ⟨h.1, by simp [h.2]⟩
    · rw [if_neg hc] at h
      rw [if_neg hc]
      by_cases hc1 : (isDigitC c1 && v1 (dval c1)) = true
      · rw [if_pos hc1] at h
        simp at h
      · rw [if_neg hc1] at h
        exact absurd h (by simp)

/-- Appending a non-digit character (plus anything after it) to an input the
full format consumed exactly leaves the parsed fields unchanged, with the
appended part as unconverted remainder. -/
theorem strptimeFields_append (l : List Char) (f : NaiveDT) (a : Char) (e : List Char)
    (ha : isDigitC a = false) (h : strptimeFields l = some (f, [])) :
    strptimeFields (l ++ a :: e) = some (f, a :: e) := by
  simp only [strptimeFields, parseMonth, parseDay, parseHour, parseMinute] at h ⊢
  cases h1 : parse4Digits l with
  | none => simp only [h1] at h; exact Option.noConfusion h
  | some yr1 =>
  obtain ⟨y, r1⟩ := yr1
  simp only [h1] at h
  cases h2 : expectChar '-' r1 with
  | none => simp only [h2] at h; exact Option.noConfusion h
  | some r2 =>
  simp only [h2] at h
  cases h3 : parse2Greedy (fun v => 1 ≤ v && v ≤ 12) (fun v => 1 ≤ v && v ≤ 9) r2 with
  | none => simp only [h3] at h; exact Option.noConfusion h
  | some mr =>
  obtain ⟨mo, r3⟩ := mr
  simp only [h3] at h
  cases h4 : expectChar '-' r3 with
  | none => simp only [h4] at h; exact Option.noConfusion h
  | some r4 =>
  simp only [h4] at h
  cases h5 : parse2Greedy (fun v => 1 ≤ v && v ≤ 31) (fun v => 1 ≤ v && v ≤ 9) r4 with
  | none => simp only [h5] at h; exact Option.noConfusion h
  | some dr =>
  obtain ⟨d, r5⟩ := dr
  simp only [h5] at h
  cases h6 : skipSpaces1 r5 with
  | none => simp only [h6] at h; exact Option.noConfusion h
  | some r6 =>
  simp only [h6] at h
  cases h7 : parse2Greedy (fun v => v ≤ 23) (fun _ => true) r6 with
  | none => simp only [h7] at h; exact Option.noConfusion h
  | some hr =>
  obtain ⟨hh, r7⟩ := hr
  simp only [h7] at h
  cases h8 : expectChar ':' r7 with
  | none => simp only [h8] at h; exact Option.noConfusion h
  | some r8 =>
  simp only [h8] at h
  cases h9 : parse2Greedy (fun v => v ≤ 59) (fun _ => true) r8 with
  | none => simp only [h9] at h; exact Option.noConfusion h
  | some mir =>
  obtain ⟨mi, r9⟩ := mir
  simp only [h9, Option.some.injEq, Prod.mk.injEq] at h
  obtain ⟨hf, hr9⟩ := h
  subst hr9
  cases r3 with
  | nil => exact absurd h4 (by simp [expectChar])
  | cons b3 r3t =>
  cases r5 with
  | nil => exact absurd h6 (by simp [skipSpaces1])
  | cons b5 r5t =>
  cases r6 with
  | nil => exact absurd h7 (by simp [parse2Greedy])
  | cons b6 r6t =>
  cases r7 with
  | nil => exact absurd h8 (by simp [expectChar])
  | cons b7 r7t =>
  have e1 := parse4Digits_append l (a :: e) y r1 h1
  have e2 := expectChar_append '-' r1 (a :: e) r2 h2
  have e3 := parse2Greedy_append_ne _ _ r2 (a :: e) mo b3 r3t h3
  have e4 := expectChar_append '-' (b3 :: r3t) (a :: e) r4 h4
  have e5 := parse2Greedy_append_ne _ _ r4 (a :: e) d b5 r5t h5
  have e6 := skipSpaces1_append (b5 :: r5t) (a :: e) b6 r6t h6
  have e7 := parse2Greedy_append_ne _ _ (b6 :: r6t) (a :: e) hh b7 r7t h7
  have e8 := expectChar_append ':' (b7 :: r7t) (a :: e) r8 h8
  have e9 := parse2Greedy_append_end _ _ r8 mi a e ha h9
  simp only [List.cons_append] at e4 e6 e7 e8
  simp only [e1, e2, List.cons_append, e3, e4, e5, e6, e7, e8, e9,
    Option.some.injEq, Prod.mk.injEq]
  exact ⟨hf, trivial⟩

/-- Unfolding of a successful strict parse: the fields survive the range
checks and the format consumed the input exactly. -/
theorem strptimeYmdHM_some (l : List Char) (f : NaiveDT)
    (h : strptimeYmdHM l = some f) :
    strptimeFields l = some (f, []) ∧ validDate f = true := by
  unfold strptimeYmdHM at h
  cases hf : strptimeFields l with
  | none => rw [hf] at h; simp at h
  | some fr =>
    obtain ⟨f2, r⟩ := fr
    rw [hf] at h
    cases r with
    | nil =>
      simp only [Option.ite_none_right_eq_some, Option.some.injEq] at h
      obtain ⟨hv, heq⟩ := h
      subst heq
      exact ⟨rfl, hv⟩
    | cons b t => simp at h

/-- The list `base ++ ' ' :: tok` does not end in `" EAT"` when `tok` is a
nonempty token free of digits and whitespace other than `EAT` itself. -/
theorem not_eat_suffix (base tok : List Char)
    (htok : tok ≠ []) (hchars : ∀ c ∈ tok, isDigitC c = false ∧ pyIsSpace c = false)
    (hne : tok ≠ ['E', 'A', 'T']) :
    eatSfx.isSuffixOf (base ++ ' ' :: tok) = false := by
  rw [Bool.eq_false_iff]
  intro hsuf
  have hsfx : eatSfx <:+ (base ++ ' ' :: tok) := by
    rwa [← List.isSuffixOf_iff_suffix]
  obtain ⟨t, ht⟩ := hsfx
  have heq : 'T' :: 'A' :: 'E' :: ' ' :: t.reverse
      = tok.reverse ++ ' ' :: base.reverse := by
    have h2 := congrArg List.reverse ht
    simp only [List.reverse_append, List.reverse_cons, List.append_assoc] at h2
    simpa [eatSfx] using h2
  cases htr : tok.reverse with
  | nil => exact htok (by simpa using congrArg List.reverse htr)
  | cons c1 r1 =>
    rw [htr] at heq
    rcases r1 with _ | ⟨c2, r2⟩
    · simp only [List.cons_append, List.nil_append, List.cons.injEq] at heq
      exact absurd heq.2.1 (by decide)
    rcases r2 with _ | ⟨c3, r3⟩
    · simp only [List.cons_append, List.nil_append, List.cons.injEq] at heq
      exact absurd heq.2.2.1 (by decide)
    rcases r3 with _ | ⟨c4, r4⟩
    · simp only [List.cons_append, List.nil_append, List.cons.injEq] at heq
      obtain ⟨hT, hA, hE, -⟩ := heq
      apply hne
      have hrev : tok.reverse = ['T', 'A', 'E'] := by rw [htr, ← hT, ← hA, ← hE]
      simpa using congrArg List.reverse hrev
    · simp only [List.cons_append, List.cons.injEq] at heq
      obtain ⟨-, -, -, hsp, -⟩ := heq
      have hc4 : c4 ∈ tok := by
        have hm : c4 ∈ tok.reverse := by rw [htr]; simp
        simpa using hm
      have hps := (hchars c4 hc4).2
      rw [← hsp] at hps
      exact absurd hps (by decide)

/-- C6: timezone selection of `echo_mobile_date_to_iso` on valid
`YYYY-MM-DD hh:mm` inputs: an explicit timezone override always wins (also
when an `" EAT"` suffix is present and stripped); an `" EAT"` suffix with no
override selects the fixed +03:00 East-Africa zone without requiring login;
no suffix and no override uses the login context's timezone and raises
`NoSessionDataError` when not logged in; and a trailing non-numeric token
other than `EAT` is a hard `ValueError` parse failure whatever the timezone
argument and login state. -/
theorem echo_mobile_date_to_iso_timezone_selection (s : Session) (tzdb : String → Tz)
    (date : String) (f : NaiveDT) (z : Tz) (ld : LoginResponse) :
    (strptimeYmdHM (coreChars date) = some f →
      echo_mobile_date_to_iso s tzdb date (some z)
        = .ok (isoformatAware f (z.localize f))) ∧
    (eatSfx.isSuffixOf date.data = true →
      strptimeYmdHM (coreChars date) = some f →
      echo_mobile_date_to_iso s tzdb date none = .ok (isoformatAware f 180)) ∧
    (eatSfx.isSuffixOf date.data = false → s.login_data = none →
      strptimeYmdHM date.data = some f →
      echo_mobile_date_to_iso s tzdb date none
        = .error (.noSessionDataError noSessionDataDefaultMsg)) ∧
    (eatSfx.isSuffixOf date.data = false → s.login_data = some ld →
      strptimeYmdHM date.data = some f →
      echo_mobile_date_to_iso s tzdb date none
        = .ok (isoformatAware f ((tzdb ld.tz).localize f))) ∧
    (∀ (base tok : List Char) (anytz : Option Tz),
      date.data = base ++ ' ' :: tok →
      strptimeYmdHM base = some f →
      tok ≠ [] → (∀ c ∈ tok, isDigitC c = false ∧ pyIsSpace c = false) →
      tok ≠ ['E', 'A', 'T'] →
      echo_mobile_date_to_iso s tzdb date anytz
        = .error (.valueError "unconverted data remains")) := by
  refine ⟨fun hp => ?_, fun he hp => ?_, fun he hld hp => ?_, fun he hld hp => ?_,
    fun base tok anytz hdate hp htok hchars hne => ?_⟩
  · simp [echo_mobile_date_to_iso, hp, ite_self]
  · simp [echo_mobile_date_to_iso, he, hp, nairobi]
  · have hcc : coreChars date = date.data := by simp [coreChars, he]
    rw [← hcc] at hp
    simp [echo_mobile_date_to_iso, he, hld, hp]
  · have hcc : coreChars date = date.data := by simp [coreChars, he]
    rw [← hcc] at hp
    simp [echo_mobile_date_to_iso, he, hld, hp]
  · have hsuf : eatSfx.isSuffixOf date.data = false := by
      rw [hdate]
      exact not_eat_suffix base tok htok hchars hne
    obtain ⟨hfields, hval⟩ := strptimeYmdHM_some base f hp
    have hap := strptimeFields_append base f ' ' tok (by decide) hfields
    have hparse : strptimeYmdHM (coreChars date) = none := by
      rw [coreChars, hsuf]
      simp only [Bool.false_eq_true, if_false, hdate, strptimeYmdHM, hap]
    simp [echo_mobile_date_to_iso, hsuf, hparse]

/-- Witness for C6: the spec's own example `"2018-06-02 04:20 EAT"` with no
override and no login yields the +03:00 ISO string. -/
theorem echo_mobile_date_to_iso_timezone_selection_witness :
    echo_mobile_date_to_iso Session.init (fun _ => nairobi) "2018-06-02 04:20 EAT" none
      = .ok "2018-06-02T04:20:00+03:00" := by
  have h := (echo_mobile_date_to_iso_timezone_selection Session.init (fun _ => nairobi)
    "2018-06-02 04:20 EAT" ⟨2018, 6, 2, 4, 20, 0⟩ nairobi ⟨true, "", "", ""⟩).2.1
    (by decide) (by decide)
  rw [h]
  rfl

/-- C7: `normalise_message` copies the record's sender and message values
through unchanged and maps `Date` to the POSIX timestamp of the instant
denoted by the ISO-8601 value at the date key (parsed, converted to UTC,
and turned back into a number by `mktime` over the UTC calendar fields);
on the specification's concrete record the date is 1527924780. -/
theorem normalise_message_spec (d : List (String × String))
    (sender_key date_key message_key sv dv mv : String) (aware : AwareDT)
    (hs : lookupField d sender_key = some sv)
    (hd : lookupField d date_key = some dv)
    (hm : lookupField d message_key = some mv)
    (hp : isoparse8601 dv.data = some aware) :
    normalise_message d sender_key date_key message_key = .ok ⟨sv, aware.epoch, mv⟩ ∧
    normalise_message
        [("date-time", "2018-06-02T10:33:00+03:00"), ("phone", "P"), ("msg", "Hello!")]
        "phone" "date-time" "msg" = .ok ⟨"P", 1527924780, "Hello!"⟩ := by
  constructor
  · simp only [normalise_message, hs, hd, hm, hp]
    simp [mktimeUTC, utcTimetuple, astimezone, epochOfFields_gmtimeFields]
  · rfl

/-- Witness for C7: the specification's concrete message record. -/
theorem normalise_message_spec_witness :
    normalise_message
        [("date-time", "2018-06-02T10:33:00+03:00"), ("phone", "P"), ("msg", "Hello!")]
        "phone" "date-time" "msg" = .ok ⟨"P", 1527924780, "Hello!"⟩ := by
  exact (normalise_message_spec
    [("date-time", "2018-06-02T10:33:00+03:00"), ("phone", "P"), ("msg", "Hello!")]
    "phone" "date-time" "msg" "P" "2018-06-02T10:33:00+03:00" "Hello!" ⟨1527924780, 180⟩
    rfl rfl rfl rfl).1

/-- C8 (code-bug evaluation): `date_to_echo_mobile_timezone` on a session
that has not logged in raises the `TypeError` of subscripting `None`
(`login_data["tz"]` with `login_data = None`), which is a different error
from the `NoSessionDataError` the claim (and the repository's own test)
expects. -/
theorem date_to_echo_mobile_timezone_logged_out :
    date_to_echo_mobile_timezone Session.init (fun _ => nairobi) ⟨1530553200, 180⟩
      = .error .noneTypeError ∧
    ∀ msg : String, EMError.noneTypeError ≠ EMError.noSessionDataError msg := by
  exact ⟨rfl, fun msg h => EMError.noConfusion h⟩

end EchoMobile
